import Mathlib

/-!
Shallow embedding of the BlackRoad Notification Hub core
(`src/src/module.py`) and verification of its specification claims.

Modelling conventions:
* SQLite tables become Lean lists of records; `INSERT OR REPLACE` on the
  `id` primary key becomes remove-then-append on the list.
* Wall-clock reads (`time.time()`) and measured latency are external
  inputs, passed as explicit `now` / `lat` parameters (`Nat` stands for
  the opaque timestamp value).
* Python values that can raise become `Except String`; `None`-able
  columns become `Option`.
* The in-memory `Notification` dataclass stores its `channel` and
  `status` as the underlying strings (Python's enum members are value
  classes over these strings, and the code coerces with
  `x.value if isinstance(x, Channel) else x` at every boundary, so the
  string view is behaviourally identical).
* `metadata` is round-tripped verbatim (`json.dumps`/`json.loads`); it is
  modelled as the opaque stored text.
-/

namespace NotificationHub

/-- Channel enumeration from `class Channel(str, Enum)`: the four valid
delivery channels. -/
inductive Channel where
  | email
  | slack
  | webhook
  | push
deriving DecidableEq, Repr

/-- String value of each `Channel` member (`Channel.EMAIL.value = "email"`, …). -/
def Channel.value : Channel → String
  | .email => "email"
  | .slack => "slack"
  | .webhook => "webhook"
  | .push => "push"

/-- Embedding of the `Channel(s)` enum constructor: succeeds exactly on the
four member values, otherwise Python raises `ValueError` (here: `none`). -/
def Channel.fromString (s : String) : Option Channel :=
  if s = "email" then some .email
  else if s = "slack" then some .slack
  else if s = "webhook" then some .webhook
  else if s = "push" then some .push
  else none

/-- Status enumeration from `class NotificationStatus(str, Enum)`. -/
inductive NotificationStatus where
  | pending
  | sent
  | failed
  | read
deriving DecidableEq, Repr

/-- String value of each `NotificationStatus` member. -/
def NotificationStatus.value : NotificationStatus → String
  | .pending => "pending"
  | .sent => "sent"
  | .failed => "failed"
  | .read => "read"

/-- Embedding of the `NotificationStatus(s)` enum constructor. -/
def NotificationStatus.fromString (s : String) : Option NotificationStatus :=
  if s = "pending" then some .pending
  else if s = "sent" then some .sent
  else if s = "failed" then some .failed
  else if s = "read" then some .read
  else none

/-- The `Notification` dataclass, doubling as a row of the `notifications`
table (the table stores exactly these fields, stringly-typed; see module
schema in `init_db`). -/
structure Notification where
  id : String
  type : String
  recipient : String
  subject : String
  body : String
  channel : String
  status : String
  sent_at : Option Nat
  created_at : Nat
  metadata : String
  retry_count : Nat
deriving DecidableEq, Repr

/-- One row of the `delivery_log` table (the autoincrement surrogate key is
represented by the position in the list). -/
structure LogRow where
  notification_id : String
  channel : String
  attempt_at : Nat
  success : Bool
  error_msg : Option String
  latency_ms : Nat
deriving DecidableEq, Repr

/-- The SQLite database state: `notifications` and `delivery_log` tables.
(The `templates` table is independent of every claim under verification and
is omitted.) -/
structure DB where
  notifications : List Notification
  delivery_log : List LogRow
deriving DecidableEq, Repr

/-- The freshly initialised database (`init_db` creates empty tables). -/
def emptyDB : DB := { notifications := [], delivery_log := [] }

/-- Embedding of `INSERT OR REPLACE INTO notifications`: the primary key is
`id`, so the conflicting row (if any) is deleted and the new row inserted. -/
def upsertNotif (row : Notification) (rows : List Notification) : List Notification :=
  (rows.filter (fun r => r.id ≠ row.id)) ++ [row]

/-- Embedding of `_row_to_notification`: decoding a stored row re-runs the
`Channel(...)` and `NotificationStatus(...)` enum constructors, which raise
`ValueError` on any string outside the enumerated values. -/
def _row_to_notification (r : Notification) : Except String Notification :=
  match Channel.fromString r.channel with
  | none => Except.error (r.channel ++ " is not a valid Channel")
  | some _ =>
    match NotificationStatus.fromString r.status with
    | none => Except.error (r.status ++ " is not a valid NotificationStatus")
    | some _ => Except.ok r

/-- Embedding of `send_notification`: validates the channel (the simulated
delivery succeeds exactly when `Channel(...)` does not raise), then upserts
the notification row with the new status/`sent_at` and appends exactly one
`delivery_log` row. `now` is the `time.time()` reading, `lat` the measured
latency. Returns the success boolean together with the new database. -/
def send_notification (n : Notification) (now lat : Nat) (db : DB) : Bool × DB :=
  let success := (Channel.fromString n.channel).isSome
  let error_msg : Option String :=
    if success then none else some ("Unknown channel: " ++ n.channel)
  let new_status := if success then "sent" else "failed"
  let sent_at : Option Nat := if success then some now else none
  let row : Notification :=
    { n with status := new_status, sent_at := sent_at }
  let log : LogRow :=
    { notification_id := n.id, channel := n.channel, attempt_at := now,
      success := success, error_msg := error_msg, latency_ms := lat }
  (success,
   { notifications := upsertNotif row db.notifications,
     delivery_log := db.delivery_log ++ [log] })

/-- Python dict insertion (`d[k] = v`): overwrite in place when the key is
present, otherwise append; models the dict built by `batch_send`'s
comprehension. -/
def dictInsert : List (String × Bool) → String → Bool → List (String × Bool)
  | [], k, v => [(k, v)]
  | (k', v') :: m, k, v =>
    if k' = k then (k, v) :: m else (k', v') :: dictInsert m k v

/-- The loop of `batch_send`'s dict comprehension: send each notification in
order, recording `id ↦ success` into the Python dict. -/
def batchLoop (now lat : Nat) :
    List Notification → List (String × Bool) → DB → List (String × Bool) × DB
  | [], m, db => (m, db)
  | n :: rest, m, db =>
    let sres := send_notification n now lat db
    batchLoop now lat rest (dictInsert m n.id sres.1) sres.2

/-- Embedding of `batch_send`: `{n.id: send_notification(n, db) for n in notifications}`. -/
def batch_send (ns : List Notification) (now lat : Nat) (db : DB) :
    List (String × Bool) × DB :=
  batchLoop now lat ns [] db

/-- Embedding of `mark_read`: runs
`UPDATE notifications SET status = 'read' WHERE id = ? AND status != 'pending'`
and returns `rowcount > 0`. SQLite's change counter counts every row matched
by the `WHERE` clause, even when the assignment leaves the stored value
unchanged, so the count is the number of matching rows. -/
def mark_read (notification_id : String) (db : DB) : Bool × DB :=
  let hits := db.notifications.filter
    (fun r => r.id = notification_id ∧ r.status ≠ "pending")
  let notifications := db.notifications.map
    (fun r => if r.id = notification_id ∧ r.status ≠ "pending"
              then { r with status := "read" } else r)
  (hits.length > 0, { db with notifications := notifications })

/-- Embedding of `get_notification`: `SELECT * FROM notifications WHERE id = ?`
(primary-key lookup, first row), decoded through `_row_to_notification`
(which can raise). -/
def get_notification (notification_id : String) (db : DB) :
    Except String (Option Notification) :=
  match db.notifications.find? (fun r => r.id = notification_id) with
  | none => Except.ok none
  | some r =>
    match _row_to_notification r with
    | Except.error e => Except.error e
    | Except.ok n => Except.ok (some n)

/-- The `for notif in notifications:` loop body of `retry_failed`: bump
`retry_count`, re-send, and count the successes. `acc` is the running
`(count, database)` pair. -/
def retryLoop (now lat : Nat) : List Notification → Nat × DB → Nat × DB
  | [], acc => acc
  | n :: rest, acc =>
    let n' := { n with retry_count := n.retry_count + 1 }
    let sres := send_notification n' now lat acc.2
    retryLoop now lat rest (if sres.1 then acc.1 + 1 else acc.1, sres.2)

/-- The list comprehension `[_row_to_notification(r) for r in rows]`: decode
every fetched row, raising at the first row whose decoding raises. -/
def decodeRows : List Notification → Except String (List Notification)
  | [] => Except.ok []
  | r :: rs =>
    match _row_to_notification r with
    | Except.error e => Except.error e
    | Except.ok n =>
      match decodeRows rs with
      | Except.error e => Except.error e
      | Except.ok ns => Except.ok (n :: ns)

/-- Embedding of `retry_failed`: select the rows with status `'failed'`,
decode each through `_row_to_notification` (which raises on an invalid
channel), then retry each decoded notification. The wall clock is an
external input shared by the loop iterations. -/
def retry_failed (now lat : Nat) (db : DB) : Except String (Nat × DB) :=
  let rows := db.notifications.filter (fun r => r.status = "failed")
  match decodeRows rows with
  | Except.error e => Except.error e
  | Except.ok notifs => Except.ok (retryLoop now lat notifs (0, db))

/-- Python truthiness of the optional `channel` filter argument of
`notification_stats` (the code tests `if channel`, so `None` and the empty
string both mean "no filter"). -/
def channelGiven : Option String → Bool
  | none => false
  | some s => if s = "" then false else true

/-- The `WHERE channel = ?` clause (or its absence) applied to the
`notifications` table in `notification_stats`. -/
def notifWhere (channel : Option String) (rows : List Notification) : List Notification :=
  match channel with
  | some s => if s = "" then rows else rows.filter (fun r => r.channel = s)
  | none => rows

/-- The `WHERE channel = ?` clause (or its absence) applied to the
`delivery_log` table in `notification_stats`. -/
def dlWhere (channel : Option String) (rows : List LogRow) : List LogRow :=
  match channel with
  | some s => if s = "" then rows else rows.filter (fun e => e.channel = s)
  | none => rows

/-- A `SELECT key, COUNT(*) ... GROUP BY key` result. SQLite does not specify
the order of group rows; the embedding fixes one canonical order, and no
claim under verification depends on these fields. -/
def groupCounts (f : Notification → String) (rows : List Notification) :
    List (String × Nat) :=
  ((rows.map f).dedup).map (fun k => (k, (rows.filter (fun r => f r = k)).length))

/-- Round-half-to-even on an exact rational, the tie-breaking rule of
Python's built-in round. -/
def roundHalfEven (q : ℚ) : ℤ :=
  if Int.fract q < 1/2 then ⌊q⌋
  else if Int.fract q > 1/2 then ⌊q⌋ + 1
  else if ⌊q⌋ % 2 = 0 then ⌊q⌋ else ⌊q⌋ + 1

/-- Python round(x, 2) over the exact rational value of x. The code's
arithmetic is modelled exactly over the rationals (counts are integers; the
claims state the same symbolic formula as the code). -/
def round2 (q : ℚ) : ℚ := (roundHalfEven (q * 100) : ℚ) / 100

/-- The dictionary returned by `notification_stats`. -/
structure Stats where
  total_notifications : Nat
  by_status : List (String × Nat)
  by_channel : List (String × Nat)
  total_delivery_attempts : Nat
  successful_deliveries : Nat
  delivery_success_rate_pct : ℚ
  filter_channel : Option String
deriving DecidableEq, Repr

/-- Embedding of `notification_stats`: counts over the two tables, restricted
by the channel filter, with the delivery success rate guarded against zero
attempts (`round(successful / total_attempts * 100, 2) if total_attempts
else 0.0`). -/
def notification_stats (channel : Option String) (db : DB) : Stats :=
  let notifs := notifWhere channel db.notifications
  let dl := dlWhere channel db.delivery_log
  let total_attempts := dl.length
  let successful := (dl.filter (fun e => e.success)).length
  let delivery_rate : ℚ :=
    if total_attempts = 0 then 0
    else round2 ((successful : ℚ) / (total_attempts : ℚ) * 100)
  { total_notifications := notifs.length,
    by_status := groupCounts (fun r => r.status) notifs,
    by_channel := groupCounts (fun r => r.channel) notifs,
    total_delivery_attempts := total_attempts,
    successful_deliveries := successful,
    delivery_success_rate_pct := delivery_rate,
    filter_channel := channel }

/-! ### Template rendering (`_simple_render`)

Contexts are JSON-compatible mappings (the CLI decodes the context with
`json.loads`): nested string-keyed mappings, arrays, strings, integers,
booleans and null. -/

/-- A JSON-compatible Python value, as produced by `json.loads`. -/
inductive Json where
  | str (s : String)
  | num (n : Int)
  | bool (b : Bool)
  | null
  | arr (xs : List Json)
  | obj (kvs : List (String × Json))
deriving Repr

/-- Python's single-quote character (written via its code point). -/
def squote : Char := Char.ofNat 39

/-- Escape one character inside a Python string repr: backslash, the chosen
quote and the common control characters; other characters are kept verbatim
(the abstraction does not affect any claim, which never inspects the repr of
a container). -/
def pyEscapeChar (quote : Char) (c : Char) : String :=
  if c = '\\' then "\\\\"
  else if c = quote then "\\" ++ String.mk [quote]
  else if c = '\n' then "\\n"
  else if c = '\r' then "\\r"
  else if c = '\t' then "\\t"
  else String.mk [c]

/-- Python repr of a string: single quotes, unless the string contains a
single quote and no double quote. -/
def pyReprStr (s : String) : String :=
  let hasSingle := s.toList.any (fun c => c = squote)
  let hasDouble := s.toList.any (fun c => c = '"')
  let q : Char := if hasSingle && !hasDouble then '"' else squote
  String.mk [q] ++ String.join (s.toList.map (pyEscapeChar q)) ++ String.mk [q]

mutual

/-- Python repr of a JSON value (used for elements nested inside containers
by str()). -/
def pyRepr : Json → String
  | .str s => pyReprStr s
  | .num n => toString n
  | .bool true => "True"
  | .bool false => "False"
  | .null => "None"
  | .arr xs => "[" ++ pyReprArr xs ++ "]"
  | .obj kvs => "\x7b" ++ pyReprObj kvs ++ "\x7d"

/-- Comma-separated reprs of the elements of a Python list. -/
def pyReprArr : List Json → String
  | [] => ""
  | [v] => pyRepr v
  | v :: vs => pyRepr v ++ ", " ++ pyReprArr vs

/-- Comma-separated key: value reprs of the items of a Python dict. -/
def pyReprObj : List (String × Json) → String
  | [] => ""
  | [(k, v)] => pyReprStr k ++ ": " ++ pyRepr v
  | (k, v) :: kvs => pyReprStr k ++ ": " ++ pyRepr v ++ ", " ++ pyReprObj kvs

end

/-- Python str() of a JSON value: a string is itself, anything else via its
repr (str of int/bool/None/list/dict coincides with repr). -/
def pyStr : Json → String
  | .str s => s
  | v => pyRepr v

/-- Whitespace characters stripped by Python str.strip(). -/
def isPySpace (c : Char) : Bool :=
  c = ' ' || c = '\t' || c = '\n' || c = '\r' || c = '\x0b' || c = '\x0c'

/-- Python str.strip(): drop whitespace from both ends. -/
def pyStrip (l : List Char) : List Char :=
  ((l.dropWhile isPySpace).reverse.dropWhile isPySpace).reverse

/-- Python str.split(".") over the characters of the path: every dot is a
separator, consecutive dots produce empty segments, and the empty string
splits to one empty segment. -/
def splitDot : List Char → List (List Char)
  | [] => [[]]
  | c :: cs =>
    if c = '.' then [] :: splitDot cs
    else
      match splitDot cs with
      | [] => [[c]]
      | p :: ps => (c :: p) :: ps

/-- A Python runtime value encountered while walking a dotted path: either a
JSON value from the context, or a non-JSON runtime object (such as a bound
method reached through getattr), abstracted by the string its str() would
produce. -/
inductive PyVal where
  | json (j : Json)
  | other (s : String)

/-- Python str() of a resolved value: a JSON value prints as `pyStr`; a
non-JSON runtime object is abstracted by the string it carries. -/
def pyStrVal : PyVal → String
  | .json j => pyStr j
  | .other s => s

/-- The dotted-path walk of `replacer`: starting from the context dict, each
segment indexes a dict by key (`value[part]`, raising KeyError when absent);
on any non-dict value Python evaluates `getattr(value, part)`, which succeeds
exactly when the segment names an existing attribute of the runtime object —
for example methods of str or the numeric fields of int — and raises
AttributeError/TypeError otherwise. Which names exist on which objects, and
what such an attribute is, belong to the Python runtime rather than to this
module, so the embedding takes the getattr behaviour as an explicit
parameter `attr` (returning `none` where getattr raises); every raised
lookup is caught by `replacer`, so the walk fails closed exactly when a dict
key is absent or `attr` fails. -/
def getPath (attr : PyVal → String → Option PyVal) : PyVal → List String → Option PyVal
  | v, [] => some v
  | PyVal.json (Json.obj kvs), p :: ps =>
    match kvs.lookup p with
    | some v => getPath attr (PyVal.json v) ps
    | none => none
  | v, p :: ps =>
    match attr v p with
    | some v2 => getPath attr v2 ps
    | none => none

/-- The getattr behaviour in which no queried name exists on any non-dict
object (every access raises AttributeError); used to instantiate witnesses
whose paths are resolved or rejected by dict lookups alone. -/
def attrEmpty : PyVal → String → Option PyVal := fun _ _ => none

/-- Lazy search for the closing braces of a placeholder. Given the text
following an opening pair of braces, the regex (two opening braces, then
one-or-more lazily matched non-newline characters, then two closing braces)
matches with the shortest nonempty inner text: `findClose` returns the first
split at a closing pair, failing if a newline is reached first (the dot of
the pattern does not match a newline). -/
def findClose : List Char → Option (List Char × List Char)
  | [] => none
  | c :: cs =>
    if c = '\n' then none
    else if cs.take 2 = ['\x7d', '\x7d'] then some ([c], cs.drop 2)
    else
      match findClose cs with
      | some (inner, rest) => some (c :: inner, rest)
      | none => none

/-- A successful `findClose` decomposes its input as inner text, the two
closing braces, and the remainder. -/
theorem findClose_sound {l inner rest : List Char}
    (h : findClose l = some (inner, rest)) :
    l = inner ++ '\x7d' :: '\x7d' :: rest := by
  induction l generalizing inner rest with
  | nil => simp [findClose] at h
  | cons c cs ih =>
    rw [findClose] at h
    split at h
    · simp at h
    · split at h
      next htake =>
        have hcs : cs = '\x7d' :: '\x7d' :: cs.drop 2 := by
          conv_lhs => rw [← List.take_append_drop 2 cs]
          rw [htake]
          rfl
        simp only [Option.some.injEq, Prod.mk.injEq] at h
        obtain ⟨h1, h2⟩ := h
        subst h1
        subst h2
        simpa using hcs
      next htake =>
        cases hfc : findClose cs with
        | none => rw [hfc] at h; simp at h
        | some p =>
          obtain ⟨inner', rest'⟩ := p
          rw [hfc] at h
          simp only [Option.some.injEq, Prod.mk.injEq] at h
          obtain ⟨h1, h2⟩ := h
          subst h1
          subst h2
          have := ih hfc
          simp [this]

/-- The remainder returned by `findClose` is strictly shorter than the
input. -/
theorem findClose_length {l inner rest : List Char}
    (h : findClose l = some (inner, rest)) : rest.length < l.length := by
  have hs := findClose_sound h
  rw [hs]
  simp only [List.length_append, List.length_cons]
  omega

/-- One token of the single-pass substitution: a literal character left
untouched by re.sub, or the inner text of one matched placeholder. -/
inductive RTok where
  | lit (c : Char)
  | ph (inner : List Char)
deriving DecidableEq, Repr

/-- The left-to-right, non-overlapping match decomposition performed by
re.sub with the lazy placeholder pattern: at each position, if an opening
pair of braces starts a complete match its inner text becomes one `ph`
token and scanning resumes after the closing braces (matched text is never
rescanned); otherwise the character is a literal. -/
def tokenize : List Char → List RTok
  | [] => []
  | [c] => [.lit c]
  | c1 :: c2 :: cs =>
    if c1 = '\x7b' ∧ c2 = '\x7b' then
      match hfc : findClose cs with
      | some (inner, rest) => .ph inner :: tokenize rest
      | none => .lit c1 :: tokenize (c2 :: cs)
    else .lit c1 :: tokenize (c2 :: cs)
termination_by l => l.length
decreasing_by
  · have := findClose_length hfc
    simp only [List.length_cons]
    omega
  · simp only [List.length_cons]; omega
  · simp only [List.length_cons]; omega

/-- Embedding of `replacer`, the per-match substitution function: strip the
inner text, split it on dots, walk the context under the runtime's getattr
behaviour `attr`; on success substitute the str() of the value reached, on
failure (a caught KeyError/AttributeError/TypeError) return the entire
original matched text (group 0: braces included) unchanged. -/
def replacer (attr : PyVal → String → Option PyVal) (context : List (String × Json))
    (inner : List Char) : List Char :=
  let key := pyStrip inner
  let parts := (splitDot key).map (fun cs => String.mk cs)
  match getPath attr (PyVal.json (Json.obj context)) parts with
  | some v => (pyStrVal v).toList
  | none => '\x7b' :: '\x7b' :: (inner ++ ['\x7d', '\x7d'])

/-- Render one token: literals pass through, placeholders go through
`replacer`. -/
def renderTok (attr : PyVal → String → Option PyVal) (context : List (String × Json)) :
    RTok → List Char
  | .lit c => [c]
  | .ph inner => replacer attr context inner

/-- Embedding of `_simple_render`: re.sub replaces every non-overlapping
lazy match of the placeholder pattern by `replacer`'s output and keeps all
other text, i.e. it concatenates the rendering of each token of the match
decomposition. The runtime's getattr behaviour is the `attr` parameter. -/
def _simple_render (attr : PyVal → String → Option PyVal) (template : String)
    (context : List (String × Json)) : String :=
  String.mk (((tokenize template.toList).map (renderTok attr context)).flatten)

/-! ### Fixtures and reachability -/

/-- A concrete notification value used by witnesses and counterexamples. -/
def sampleN (id channel : String) : Notification :=
  { id := id, type := "t", recipient := "r", subject := "s", body := "b",
    channel := channel, status := "pending", sent_at := none, created_at := 0,
    metadata := "\x7b\x7d", retry_count := 0 }

/-- Database holding one successfully sent notification: id n1, channel
email, sent at time 1. -/
def dbOneSent : DB := (send_notification (sampleN "n1" "email") 1 0 emptyDB).2

/-- Database holding one failed notification: id n2, invalid channel sms,
attempted at time 2; reached from the fresh database by one send. -/
def dbOneFailed : DB := (send_notification (sampleN "n2" "sms") 2 0 emptyDB).2

/-- Database holding one directly inserted failed row whose channel is
valid, as the repository's own retry test inserts at the SQL level
(bypassing `send_notification`). -/
def dbFailedValid : DB :=
  { notifications := [{ sampleN "n1" "email" with status := "failed" }],
    delivery_log := [] }

/-- Database states reachable from a fresh database through the public write
operations of the module. -/
inductive Reachable : DB → Prop where
  | init : Reachable emptyDB
  | send (n : Notification) (now lat : Nat) {db : DB} :
      Reachable db → Reachable (send_notification n now lat db).2
  | markRead (nid : String) {db : DB} :
      Reachable db → Reachable (mark_read nid db).2
  | batch (ns : List Notification) (now lat : Nat) {db : DB} :
      Reachable db → Reachable (batch_send ns now lat db).2
  | retry (now lat k : Nat) {db db' : DB} :
      Reachable db → retry_failed now lat db = Except.ok (k, db') → Reachable db'

/-- Storage invariant maintained by every public operation: row ids are
unique (id is the primary key, and the model's upsert keeps it so), and
every row stored with status failed has a channel outside the enumerated
set — the only way `send_notification` ever writes a failed status. -/
def StoreInv (db : DB) : Prop :=
  (db.notifications.map (fun r => r.id)).Nodup ∧
  ∀ r ∈ db.notifications, r.status = "failed" → Channel.fromString r.channel = none

/-! ### Shared lemmas -/

/-- The success boolean returned by `send_notification` is exactly the
validity of the channel. -/
theorem send_notification_fst (n : Notification) (now lat : Nat) (db : DB) :
    (send_notification n now lat db).1 = (Channel.fromString n.channel).isSome := rfl

/-- Explicit form of the database written by `send_notification`. -/
theorem send_notification_snd (n : Notification) (now lat : Nat) (db : DB) :
    (send_notification n now lat db).2
      = { notifications :=
            upsertNotif
              { n with
                  status := if (Channel.fromString n.channel).isSome then "sent" else "failed",
                  sent_at := if (Channel.fromString n.channel).isSome then some now else none }
              db.notifications,
          delivery_log := db.delivery_log ++
            [{ notification_id := n.id, channel := n.channel, attempt_at := now,
               success := (Channel.fromString n.channel).isSome,
               error_msg := if (Channel.fromString n.channel).isSome then none
                            else some ("Unknown channel: " ++ n.channel),
               latency_ms := lat }] } := by
  unfold send_notification
  by_cases h : (Channel.fromString n.channel).isSome <;> simp [h]

/-- After an upsert, the rows carrying the upserted id are exactly the new
row. -/
theorem upsertNotif_filter_eq (row : Notification) (rows : List Notification)
    (x : String) (hx : row.id = x) :
    (upsertNotif row rows).filter (fun r => r.id = x) = [row] := by
  subst hx
  unfold upsertNotif
  induction rows with
  | nil => simp
  | cons a rs ih =>
    by_cases h : a.id = row.id
    · simpa [List.filter_cons, h] using ih
    · simpa [List.filter_cons, h] using ih

/-- The upserted row is stored. -/
theorem mem_upsertNotif_self (row : Notification) (rows : List Notification) :
    row ∈ upsertNotif row rows := by
  unfold upsertNotif
  simp

/-- Rows with a different id survive an upsert. -/
theorem mem_upsertNotif_of_ne {r row : Notification} (rows : List Notification)
    (hr : r ∈ rows) (hne : r.id ≠ row.id) : r ∈ upsertNotif row rows := by
  unfold upsertNotif
  exact List.mem_append_left _ (List.mem_filter.mpr ⟨hr, by simpa using hne⟩)

/-- Every row stored after an upsert is an old row or the new row. -/
theorem mem_of_mem_upsertNotif {r row : Notification} {rows : List Notification}
    (h : r ∈ upsertNotif row rows) : r ∈ rows ∨ r = row := by
  unfold upsertNotif at h
  rcases List.mem_append.mp h with h1 | h1
  · exact Or.inl (List.mem_filter.mp h1).1
  · exact Or.inr (by simpa using h1)

/-- Upserting preserves uniqueness of the stored ids. -/
theorem upsertNotif_ids_nodup {row : Notification} {rows : List Notification}
    (h : (rows.map (fun r => r.id)).Nodup) :
    ((upsertNotif row rows).map (fun r => r.id)).Nodup := by
  unfold upsertNotif
  rw [List.map_append, List.nodup_append]
  refine ⟨?_, by simp, ?_⟩
  · exact ((List.filter_sublist rows).map (fun r => r.id)).nodup h
  · intro x hx
    rcases List.mem_map.mp hx with ⟨r, hr, rfl⟩
    have h2 := (List.mem_filter.mp hr).2
    simp only [List.map_cons, List.map_nil, List.mem_singleton]
    intro hc
    rw [hc] at h2
    simp at h2

/-- `mark_read` changes no row's id or `sent_at`. -/
theorem mark_read_ids_sent_at (nid : String) (db : DB) :
    (mark_read nid db).2.notifications.map (fun r => (r.id, r.sent_at))
      = db.notifications.map (fun r => (r.id, r.sent_at)) := by
  unfold mark_read
  rw [List.map_map]
  apply List.map_congr_left
  intro a _
  by_cases h : a.id = nid ∧ a.status ≠ "pending" <;> simp [h]

/-! ### Claim C4 -/

/-- C4: for every notification whose channel is one of the four valid
values, `send_notification` returns true, persists the notification with
status sent and non-null `sent_at`, and appends exactly one delivery-log row
for that call with success recorded as true. -/
theorem C4_send_valid_channel (n : Notification) (now lat : Nat) (db : DB)
    (h : (Channel.fromString n.channel).isSome = true) :
    (send_notification n now lat db).1 = true ∧
    (send_notification n now lat db).2.notifications.filter (fun r => r.id = n.id)
      = [{ n with status := "sent", sent_at := some now }] ∧
    (send_notification n now lat db).2.delivery_log
      = db.delivery_log ++
        [{ notification_id := n.id, channel := n.channel, attempt_at := now,
           success := true, error_msg := none, latency_ms := lat }] := by
  have hrow : (send_notification n now lat db).2.notifications
      = upsertNotif { n with status := "sent", sent_at := some now } db.notifications := by
    rw [send_notification_snd]
    simp [h]
  refine ⟨by rw [send_notification_fst]; exact h, ?_, ?_⟩
  · rw [hrow]
    exact upsertNotif_filter_eq _ _ _ rfl
  · rw [send_notification_snd]
    simp [h]

/-- Witness for C4 at a concrete valid-channel notification. -/
theorem C4_witness :
    (Channel.fromString (sampleN "n1" "email").channel).isSome = true ∧
    (send_notification (sampleN "n1" "email") 1 0 emptyDB).1 = true ∧
    (send_notification (sampleN "n1" "email") 1 0 emptyDB).2.notifications.filter
        (fun r => r.id = (sampleN "n1" "email").id)
      = [{ sampleN "n1" "email" with status := "sent", sent_at := some 1 }] := by
  have h := C4_send_valid_channel (sampleN "n1" "email") 1 0 emptyDB (by decide)
  exact ⟨by decide, h.1, h.2.1⟩

/-! ### Claim C5 -/

/-- C5: for every notification whose channel is not one of the four valid
values, `send_notification` does not raise: it returns false, persists the
notification with status failed and null `sent_at`, and appends one
delivery-log row with success false and a non-null error message. -/
theorem C5_send_invalid_channel (n : Notification) (now lat : Nat) (db : DB)
    (h : Channel.fromString n.channel = none) :
    (send_notification n now lat db).1 = false ∧
    (send_notification n now lat db).2.notifications.filter (fun r => r.id = n.id)
      = [{ n with status := "failed", sent_at := none }] ∧
    (send_notification n now lat db).2.delivery_log
      = db.delivery_log ++
        [{ notification_id := n.id, channel := n.channel, attempt_at := now,
           success := false, error_msg := some ("Unknown channel: " ++ n.channel),
           latency_ms := lat }] ∧
    some ("Unknown channel: " ++ n.channel) ≠ (none : Option String) := by
  have hb : (Channel.fromString n.channel).isSome = false := by rw [h]; rfl
  have hrow : (send_notification n now lat db).2.notifications
      = upsertNotif { n with status := "failed", sent_at := none } db.notifications := by
    rw [send_notification_snd]
    simp [hb]
  refine ⟨by rw [send_notification_fst]; exact hb, ?_, ?_, by simp⟩
  · rw [hrow]
    exact upsertNotif_filter_eq _ _ _ rfl
  · rw [send_notification_snd]
    simp [hb]

/-- Witness for C5 at a concrete invalid-channel notification. -/
theorem C5_witness :
    Channel.fromString (sampleN "n2" "sms").channel = none ∧
    (send_notification (sampleN "n2" "sms") 2 0 emptyDB).1 = false ∧
    (send_notification (sampleN "n2" "sms") 2 0 emptyDB).2.notifications.filter
        (fun r => r.id = (sampleN "n2" "sms").id)
      = [{ sampleN "n2" "sms" with status := "failed", sent_at := none }] := by
  have h := C5_send_invalid_channel (sampleN "n2" "sms") 2 0 emptyDB (by decide)
  exact ⟨by decide, h.1, h.2.1⟩

/-! ### Claim C7 -/

/-- C7: sending two notifications constructed with the same id leaves
exactly one stored row for that id, and that row reflects the second send's
data (status and `sent_at` recomputed from the second notification,
last-write-wins). -/
theorem C7_upsert_same_id (n1 n2 : Notification) (h : n1.id = n2.id)
    (now1 lat1 now2 lat2 : Nat) (db : DB) :
    ((send_notification n2 now2 lat2
        (send_notification n1 now1 lat1 db).2).2.notifications.filter
          (fun r => r.id = n2.id)).length = 1 ∧
    (send_notification n2 now2 lat2
        (send_notification n1 now1 lat1 db).2).2.notifications.filter
          (fun r => r.id = n2.id)
      = [{ n2 with
            status := if (Channel.fromString n2.channel).isSome then "sent" else "failed",
            sent_at := if (Channel.fromString n2.channel).isSome then some now2 else none }] := by
  have hf : (send_notification n2 now2 lat2
      (send_notification n1 now1 lat1 db).2).2.notifications.filter (fun r => r.id = n2.id)
      = [{ n2 with
            status := if (Channel.fromString n2.channel).isSome then "sent" else "failed",
            sent_at := if (Channel.fromString n2.channel).isSome then some now2 else none }] := by
    rw [send_notification_snd]
    exact upsertNotif_filter_eq _ _ _ rfl
  exact ⟨by rw [hf]; rfl, hf⟩

/-- Witness for C7: the same id sent twice (first over email at time 1, then
over push at time 2) leaves one row carrying the second send's data. -/
theorem C7_witness :
    ((send_notification (sampleN "n1" "push") 2 1
        (send_notification (sampleN "n1" "email") 1 0 emptyDB).2).2.notifications.filter
          (fun r => r.id = "n1")).length = 1 ∧
    (send_notification (sampleN "n1" "push") 2 1
        (send_notification (sampleN "n1" "email") 1 0 emptyDB).2).2.notifications.filter
          (fun r => r.id = "n1")
      = [{ sampleN "n1" "push" with status := "sent", sent_at := some 2 }] := by
  have h := C7_upsert_same_id (sampleN "n1" "email") (sampleN "n1" "push") rfl 1 0 2 1 emptyDB
  exact h

/-! ### Claim C1 -/

/-- C1: the claim fails on the code. After a successful send of id n1 and a
first `mark_read` (returning true and storing status read), a second
`mark_read` on the same id returns true again: the `UPDATE`'s `WHERE` clause
only excludes status pending, so it matches the already-read row, and
SQLite's change counter counts a matched row even when the stored value is
unchanged. The claim — and the repository's own test
`test_mark_read_idempotent` — require the second call to return false. -/
theorem C1_mark_read_second_call_returns_true :
    (mark_read "n1" dbOneSent).1 = true ∧
    (mark_read "n1" dbOneSent).2.notifications.map (fun r => r.status) = ["read"] ∧
    (mark_read "n1" (mark_read "n1" dbOneSent).2).1 = true ∧
    (mark_read "n1" (mark_read "n1" dbOneSent).2).2.notifications.map (fun r => r.status)
      = ["read"] := by
  decide

/-! ### Claim C3 -/

/-- C3 is false on the code: a successful send of id n1 at time 1 stores
`sent_at = 1`, and re-sending the same id at time 2 overwrites the row,
changing the already-set `sent_at` to 2. -/
theorem C3_counterexample :
    (send_notification (sampleN "n1" "email") 1 0 emptyDB).2.notifications.map
        (fun r => r.sent_at) = [some 1] ∧
    (send_notification (sampleN "n1" "email") 2 0
        (send_notification (sampleN "n1" "email") 1 0 emptyDB).2).2.notifications.map
        (fun r => r.sent_at) = [some 2] := by
  decide

/-- C3 amended: `sent_at` of a stored row is null until the row's latest
send succeeds. Every `send_notification` call overwrites the row's
`sent_at` under last-write-wins — to the send time on success, back to null
on failure — and `mark_read` never changes any row's `sent_at`; `sent_at`
is immutable only in the absence of further sends of the same id. -/
theorem C3_sent_at_amended (n : Notification) (now lat : Nat) (db : DB) (nid : String) :
    ((send_notification n now lat db).2.notifications.filter (fun r => r.id = n.id)).map
        (fun r => r.sent_at)
      = [if (Channel.fromString n.channel).isSome then some now else none] ∧
    (mark_read nid db).2.notifications.map (fun r => (r.id, r.sent_at))
      = db.notifications.map (fun r => (r.id, r.sent_at)) := by
  refine ⟨?_, mark_read_ids_sent_at nid db⟩
  have hf : (send_notification n now lat db).2.notifications.filter (fun r => r.id = n.id)
      = [{ n with
            status := if (Channel.fromString n.channel).isSome then "sent" else "failed",
            sent_at := if (Channel.fromString n.channel).isSome then some now else none }] := by
    rw [send_notification_snd]
    exact upsertNotif_filter_eq _ _ _ rfl
  rw [hf]
  rfl

/-! ### Claim C2 -/

/-- C2 is false on the code: `dbOneFailed` is reachable (one send of a
notification whose channel is the invalid string sms, which is also the only
way a row acquires status failed), and `retry_failed` on it raises
ValueError while decoding the failed row instead of retrying it. -/
theorem C2_counterexample :
    retry_failed 3 0 dbOneFailed = Except.error "sms is not a valid Channel" := by
  rfl

/-- Decoding a fetched row succeeds when its channel is valid and its status
is the literal failed. -/
theorem decodeRows_ok {l : List Notification}
    (h : ∀ r ∈ l, (Channel.fromString r.channel).isSome = true ∧ r.status = "failed") :
    decodeRows l = Except.ok l := by
  induction l with
  | nil => rfl
  | cons r rs ih =>
    obtain ⟨hc, hs⟩ := h r (List.mem_cons_self _ _)
    have hd : _row_to_notification r = Except.ok r := by
      unfold _row_to_notification
      cases hcc : Channel.fromString r.channel with
      | none => rw [hcc] at hc; simp at hc
      | some c => rw [hs]; rfl
    rw [decodeRows, hd, ih (fun x hx => h x (List.mem_cons_of_mem _ hx))]

/-- Retrying a list of valid-channel notifications succeeds for each of
them: the final count is the initial count plus the list length. -/
theorem retryLoop_count (now lat : Nat) (notifs : List Notification) :
    ∀ (acc : Nat × DB), (∀ n ∈ notifs, (Channel.fromString n.channel).isSome = true) →
    (retryLoop now lat notifs acc).1 = acc.1 + notifs.length := by
  induction notifs with
  | nil => intro acc _; simp [retryLoop]
  | cons n rest ih =>
    intro acc hval
    rw [retryLoop]
    have hn : (send_notification { n with retry_count := n.retry_count + 1 } now lat acc.2).1
        = true := by
      rw [send_notification_fst]
      exact hval n (List.mem_cons_self _ _)
    rw [hn]
    simp only [if_true]
    rw [ih _ (fun x hx => hval x (List.mem_cons_of_mem _ hx))]
    simp only [List.length_cons]
    omega

/-- A stored row whose id differs from every notification in the retry list
survives the retry loop. -/
theorem retryLoop_preserve (now lat : Nat) (notifs : List Notification) :
    ∀ (acc : Nat × DB) (r : Notification), r ∈ acc.2.notifications →
    (∀ n ∈ notifs, n.id ≠ r.id) →
    r ∈ (retryLoop now lat notifs acc).2.notifications := by
  induction notifs with
  | nil => intro acc r hr _; exact hr
  | cons n rest ih =>
    intro acc r hr hne
    rw [retryLoop]
    apply ih
    · show r ∈ (send_notification { n with retry_count := n.retry_count + 1 } now lat acc.2).2.notifications
      rw [send_notification_snd]
      exact mem_upsertNotif_of_ne _ hr (Ne.symm (hne n (List.mem_cons_self _ _)))
    · intro x hx
      exact hne x (List.mem_cons_of_mem _ hx)

/-- Every notification in the retry list (valid channels, distinct ids) ends
up stored with its retry count incremented by one, status sent and `sent_at`
set to the retry time. -/
theorem retryLoop_mem (now lat : Nat) (notifs : List Notification) :
    ∀ (acc : Nat × DB),
    (∀ n ∈ notifs, (Channel.fromString n.channel).isSome = true) →
    (notifs.map (fun n => n.id)).Nodup →
    ∀ n ∈ notifs,
      { n with retry_count := n.retry_count + 1, status := "sent", sent_at := some now }
        ∈ (retryLoop now lat notifs acc).2.notifications := by
  induction notifs with
  | nil => intro acc _ _ n hn; cases hn
  | cons m rest ih =>
    intro acc hval hnd n hn
    rw [retryLoop]
    rcases List.mem_cons.mp hn with rfl | hn'
    · apply retryLoop_preserve
      · show { n with retry_count := n.retry_count + 1, status := "sent", sent_at := some now }
            ∈ (send_notification { n with retry_count := n.retry_count + 1 } now lat acc.2).2.notifications
        have hv := hval n (List.mem_cons_self _ _)
        have hrow : (send_notification { n with retry_count := n.retry_count + 1 } now lat
              acc.2).2.notifications
            = upsertNotif
                { n with retry_count := n.retry_count + 1, status := "sent", sent_at := some now }
                acc.2.notifications := by
          rw [send_notification_snd]
          simp [hv]
        rw [hrow]
        exact mem_upsertNotif_self _ _
      · intro x hx hc
        apply (List.nodup_cons.mp hnd).1
        show n.id ∈ List.map (fun r => r.id) rest
        rw [← show x.id = n.id from hc]
        exact List.mem_map.mpr ⟨x, hx, rfl⟩
    · exact ih _ (fun x hx => hval x (List.mem_cons_of_mem _ hx))
        (List.nodup_cons.mp hnd).2 n hn'

/-- C2 amended: `retry_failed` behaves as claimed only on states whose
failed rows all carry a valid channel (attainable only by writes outside the
module, since `send_notification` stores status failed exactly for invalid
channels): there it increments each failed row's retry count by one,
re-sends it, and returns the number of retries that ended sent — all of
them. On any state holding a failed row with an invalid channel — every
failed row the module itself produces — it raises while decoding instead. -/
theorem C2_retry_failed_amended (now lat : Nat) (db : DB)
    (hval : ∀ r ∈ db.notifications, r.status = "failed" →
      (Channel.fromString r.channel).isSome = true)
    (hnd : (db.notifications.map (fun r => r.id)).Nodup) :
    ∃ db', retry_failed now lat db
        = Except.ok ((db.notifications.filter (fun r => r.status = "failed")).length, db')
      ∧ ∀ r ∈ db.notifications, r.status = "failed" →
          { r with retry_count := r.retry_count + 1, status := "sent", sent_at := some now }
            ∈ db'.notifications := by
  have hmem : ∀ r ∈ db.notifications.filter (fun r => r.status = "failed"),
      (Channel.fromString r.channel).isSome = true ∧ r.status = "failed" := by
    intro r hr
    have h1 := List.mem_filter.mp hr
    have h2 : r.status = "failed" := by simpa using h1.2
    exact ⟨hval r h1.1 h2, h2⟩
  have hdec := decodeRows_ok hmem
  refine ⟨(retryLoop now lat (db.notifications.filter (fun r => r.status = "failed")) (0, db)).2,
    ?_, ?_⟩
  · unfold retry_failed
    simp only [hdec]
    have hcount := retryLoop_count now lat
      (db.notifications.filter (fun r => r.status = "failed")) (0, db)
      (fun x hx => (hmem x hx).1)
    congr 1
    rw [Prod.ext_iff]
    refine ⟨?_, rfl⟩
    simpa using hcount
  · intro r hr hf
    have hrmem : r ∈ db.notifications.filter (fun r => r.status = "failed") :=
      List.mem_filter.mpr ⟨hr, by simpa using hf⟩
    have hsub : ((db.notifications.filter (fun r => r.status = "failed")).map
        (fun r => r.id)).Nodup :=
      (((List.filter_sublist db.notifications)).map (fun r => r.id)).nodup hnd
    exact retryLoop_mem now lat _ (0, db) (fun x hx => (hmem x hx).1) hsub r hrmem

/-- Witness for C2's amended claim at the externally written valid-channel
failed row (mirroring the repository's own retry test). -/
theorem C2_witness :
    ∃ db', retry_failed 5 0 dbFailedValid
        = Except.ok ((dbFailedValid.notifications.filter (fun r => r.status = "failed")).length,
            db')
      ∧ ∀ r ∈ dbFailedValid.notifications, r.status = "failed" →
          { r with retry_count := r.retry_count + 1, status := "sent", sent_at := some 5 }
            ∈ db'.notifications := by
  exact C2_retry_failed_amended 5 0 dbFailedValid (by decide) (by decide)

/-! ### Claim C8 -/

/-- Looking up the inserted key returns the inserted value. -/
theorem dictInsert_lookup_self (m : List (String × Bool)) (k : String) (v : Bool) :
    (dictInsert m k v).lookup k = some v := by
  induction m with
  | nil => simp [dictInsert, List.lookup_cons]
  | cons p m ih =>
    obtain ⟨a, b⟩ := p
    by_cases h : a = k
    · subst h
      simp [dictInsert, List.lookup_cons]
    · have hba : (k == a) = false := beq_eq_false_iff_ne.mpr (Ne.symm h)
      simpa [dictInsert, h, List.lookup_cons, hba] using ih

/-- Looking up any other key is unaffected by the insertion. -/
theorem dictInsert_lookup_ne (m : List (String × Bool)) (k : String) (v : Bool)
    (x : String) (h : x ≠ k) : (dictInsert m k v).lookup x = m.lookup x := by
  have hxk : (x == k) = false := beq_eq_false_iff_ne.mpr h
  induction m with
  | nil => simp [dictInsert, List.lookup_cons, hxk]
  | cons p m ih =>
    obtain ⟨a, b⟩ := p
    by_cases ha : a = k
    · subst ha
      simp [dictInsert, List.lookup_cons, hxk]
    · by_cases hx : x = a
      · subst hx
        simp [dictInsert, ha, List.lookup_cons]
      · have hxa : (x == a) = false := beq_eq_false_iff_ne.mpr hx
        simpa [dictInsert, ha, List.lookup_cons, hxa] using ih

/-- The key list after a dict insertion: unchanged when the key was present,
extended at the end otherwise. -/
theorem dictInsert_keys (m : List (String × Bool)) (k : String) (v : Bool) :
    (dictInsert m k v).map Prod.fst
      = if k ∈ m.map Prod.fst then m.map Prod.fst else m.map Prod.fst ++ [k] := by
  induction m with
  | nil => simp [dictInsert]
  | cons p m ih =>
    obtain ⟨a, b⟩ := p
    by_cases ha : a = k
    · subst ha
      simp [dictInsert]
    · by_cases hk : k ∈ m.map Prod.fst
      · simp [dictInsert, ha, ih, hk, Ne.symm ha]
      · simp [dictInsert, ha, ih, hk, Ne.symm ha]

/-- Dict insertion preserves uniqueness of the keys. -/
theorem dictInsert_keys_nodup {m : List (String × Bool)} (k : String) (v : Bool)
    (h : (m.map Prod.fst).Nodup) : ((dictInsert m k v).map Prod.fst).Nodup := by
  rw [dictInsert_keys]
  by_cases hk : k ∈ m.map Prod.fst
  · simpa [hk] using h
  · simp [hk, List.nodup_append, h]

/-- The database produced by the batch loop is the sequential fold of
`send_notification` over the list in the caller-supplied order. -/
theorem batchLoop_db (now lat : Nat) (ns : List Notification) :
    ∀ (m : List (String × Bool)) (db : DB),
    (batchLoop now lat ns m db).2
      = ns.foldl (fun d n => (send_notification n now lat d).2) db := by
  induction ns with
  | nil => intro m db; rfl
  | cons n rest ih =>
    intro m db
    rw [batchLoop, List.foldl_cons]
    exact ih _ _

/-- The dict built by the batch loop maps each id to the success of the last
send carrying that id, falling back to the initial dict. -/
theorem batchLoop_lookup (now lat : Nat) (ns : List Notification) :
    ∀ (m : List (String × Bool)) (db : DB) (nid : String),
    (batchLoop now lat ns m db).1.lookup nid
      = ((ns.reverse.find? (fun n => n.id = nid)).map
          (fun n => (Channel.fromString n.channel).isSome)).or (m.lookup nid) := by
  induction ns with
  | nil => intro m db nid; simp [batchLoop]
  | cons n rest ih =>
    intro m db nid
    rw [batchLoop, ih, List.reverse_cons, List.find?_append]
    cases hA : rest.reverse.find? (fun x => decide (x.id = nid)) with
    | some a => simp [hA]
    | none =>
      simp only [hA, Option.map_none', Option.none_or]
      by_cases h : n.id = nid
      · subst h
        simp [dictInsert_lookup_self, send_notification_fst, List.find?]
      · simp [dictInsert_lookup_ne m n.id _ nid (Ne.symm h), List.find?, h]

/-- C8: `batch_send` sends each notification sequentially in the
caller-supplied order — the final database is the left fold of
`send_notification`, so a failure of one never aborts the rest — and
returns a mapping holding one entry per distinct id whose value is the
outcome of the last send for that id (the outcome of a send being the
validity of that notification's channel). Ids absent from the input are
absent from the mapping. -/
theorem C8_batch_send_sequential_last_write (ns : List Notification) (now lat : Nat) (db : DB) :
    (batch_send ns now lat db).2
      = ns.foldl (fun d n => (send_notification n now lat d).2) db ∧
    ((batch_send ns now lat db).1.map Prod.fst).Nodup ∧
    ∀ nid : String,
      (batch_send ns now lat db).1.lookup nid
        = (ns.reverse.find? (fun n => n.id = nid)).map
            (fun n => (Channel.fromString n.channel).isSome) := by
  refine ⟨batchLoop_db now lat ns [] db, ?_, ?_⟩
  · have hstep : ∀ (l : List Notification) (m : List (String × Bool)) (d : DB),
        (m.map Prod.fst).Nodup → ((batchLoop now lat l m d).1.map Prod.fst).Nodup := by
      intro l
      induction l with
      | nil => intro m d h; exact h
      | cons n rest ih =>
        intro m d h
        rw [batchLoop]
        exact ih _ _ (dictInsert_keys_nodup _ _ h)
    exact hstep ns [] db (by simp)
  · intro nid
    simpa using batchLoop_lookup now lat ns [] db nid

/-! ### Claim C9 -/

/-- C9: `notification_stats` reports the delivery success rate as
round(successful / total_attempts * 100, 2) computed over the delivery log
restricted to the filter channel when one is given, and exactly 0 when the
attempt count is zero — the guard avoids the division-by-zero fault; the
attempt and success counts are the sizes of the filtered delivery log and of
its successful rows. -/
theorem C9_stats_success_rate (db : DB) (channel : Option String) :
    (notification_stats channel db).total_delivery_attempts
      = (dlWhere channel db.delivery_log).length ∧
    (notification_stats channel db).successful_deliveries
      = ((dlWhere channel db.delivery_log).filter (fun e => e.success)).length ∧
    (notification_stats channel db).delivery_success_rate_pct
      = (if (notification_stats channel db).total_delivery_attempts = 0 then 0
         else round2 (((notification_stats channel db).successful_deliveries : ℚ)
            / ((notification_stats channel db).total_delivery_attempts : ℚ) * 100)) ∧
    (∀ s : String, channel = some s → s ≠ "" →
      dlWhere channel db.delivery_log = db.delivery_log.filter (fun e => e.channel = s)) ∧
    (channel = none → dlWhere channel db.delivery_log = db.delivery_log) := by
  refine ⟨rfl, rfl, rfl, ?_, ?_⟩
  · intro s hs hne
    subst hs
    simp [dlWhere, hne]
  · intro h
    subst h
    rfl

/-- Witness for C9: a given channel filter restricts the log, and zero
delivery attempts yield a 0.0 rate without faulting. -/
theorem C9_witness :
    dlWhere (some "email") dbOneSent.delivery_log
      = dbOneSent.delivery_log.filter (fun e => e.channel = "email") ∧
    (notification_stats none emptyDB).delivery_success_rate_pct = 0 := by
  refine ⟨(C9_stats_success_rate dbOneSent (some "email")).2.2.2.1 "email" rfl (by decide), ?_⟩
  have h := (C9_stats_success_rate emptyDB none).2.2.1
  rw [h]
  decide

/-! ### Claim C10 -/

/-- A send preserves the storage invariant: the upserted row has status
failed exactly when its channel is invalid. -/
theorem storeInv_send (n : Notification) (now lat : Nat) {db : DB} (h : StoreInv db) :
    StoreInv (send_notification n now lat db).2 := by
  obtain ⟨hnd, hfail⟩ := h
  constructor
  · rw [send_notification_snd]
    exact upsertNotif_ids_nodup hnd
  · intro r hr hs
    rw [send_notification_snd] at hr
    rcases mem_of_mem_upsertNotif hr with hold | rfl
    · exact hfail r hold hs
    · have hs' : (if (Channel.fromString n.channel).isSome then "sent" else "failed")
          = "failed" := hs
      cases hcc : Channel.fromString n.channel with
      | some c =>
        rw [hcc] at hs'
        simp at hs'
      | none => rfl

/-- `mark_read` preserves the storage invariant: it never writes status
failed and never changes an id. -/
theorem storeInv_mark_read (nid : String) {db : DB} (h : StoreInv db) :
    StoreInv (mark_read nid db).2 := by
  obtain ⟨hnd, hfail⟩ := h
  constructor
  · have hids : (mark_read nid db).2.notifications.map (fun r => r.id)
        = db.notifications.map (fun r => r.id) := by
      unfold mark_read
      rw [List.map_map]
      apply List.map_congr_left
      intro a _
      by_cases hc : a.id = nid ∧ a.status ≠ "pending" <;> simp [hc]
    rw [hids]
    exact hnd
  · intro r hr hs
    unfold mark_read at hr
    rcases List.mem_map.mp hr with ⟨a, ha, rfl⟩
    by_cases hc : a.id = nid ∧ a.status ≠ "pending"
    · rw [if_pos hc] at hs
      simp at hs
    · rw [if_neg hc] at hs ⊢
      exact hfail a ha hs

/-- Sequential sends preserve the storage invariant. -/
theorem storeInv_foldl_send (now lat : Nat) (ns : List Notification) :
    ∀ {db : DB}, StoreInv db →
    StoreInv (ns.foldl (fun d n => (send_notification n now lat d).2) db) := by
  induction ns with
  | nil => intro db h; exact h
  | cons n rest ih =>
    intro db h
    rw [List.foldl_cons]
    exact ih (storeInv_send n now lat h)

/-- `batch_send` preserves the storage invariant. -/
theorem storeInv_batch (ns : List Notification) (now lat : Nat) {db : DB} (h : StoreInv db) :
    StoreInv (batch_send ns now lat db).2 := by
  rw [show (batch_send ns now lat db).2 = _ from batchLoop_db now lat ns [] db]
  exact storeInv_foldl_send now lat ns h

/-- Under the invariant, `retry_failed` returns successfully only when no
row is failed, leaving the database unchanged — so the invariant is
preserved. -/
theorem storeInv_retry (now lat k : Nat) {db db' : DB} (h : StoreInv db)
    (hok : retry_failed now lat db = Except.ok (k, db')) : StoreInv db' := by
  obtain ⟨hnd, hfail⟩ := h
  unfold retry_failed at hok
  cases hrows : db.notifications.filter (fun r => r.status = "failed") with
  | nil =>
    rw [hrows] at hok
    simp only [decodeRows, retryLoop] at hok
    have hdb : db = db' := congrArg Prod.snd (Except.ok.inj hok)
    rw [← hdb]
    exact ⟨hnd, hfail⟩
  | cons r rs =>
    exfalso
    have hrmem : r ∈ db.notifications.filter (fun x => x.status = "failed") := by
      rw [hrows]
      exact List.mem_cons_self _ _
    have h1 := List.mem_filter.mp hrmem
    have hs : r.status = "failed" := by simpa using h1.2
    have hc := hfail r h1.1 hs
    rw [hrows] at hok
    simp only [decodeRows] at hok
    unfold _row_to_notification at hok
    rw [hc] at hok
    simp at hok

/-- Every reachable database satisfies the storage invariant. -/
theorem reachable_storeInv {db : DB} (h : Reachable db) : StoreInv db := by
  induction h with
  | init =>
    refine ⟨by simp [emptyDB], ?_⟩
    intro r hr
    simp [emptyDB] at hr
  | send n now lat _ ih => exact storeInv_send n now lat ih
  | markRead nid _ ih => exact storeInv_mark_read nid ih
  | batch ns now lat _ ih => exact storeInv_batch ns now lat ih
  | retry now lat k _ hok ih => exact storeInv_retry now lat k ih hok

/-- With unique stored ids, the primary-key lookup finds exactly the stored
row carrying the id. -/
theorem find?_of_mem_nodup {l : List Notification} {r : Notification}
    (hnd : (l.map (fun x => x.id)).Nodup) (hr : r ∈ l) :
    l.find? (fun x => x.id = r.id) = some r := by
  induction l with
  | nil => cases hr
  | cons a l ih =>
    rcases List.mem_cons.mp hr with rfl | hmem
    · simp [List.find?_cons]
    · have hne : a.id ≠ r.id := by
        intro hc
        apply (List.nodup_cons.mp hnd).1
        show a.id ∈ List.map (fun x => x.id) l
        rw [hc]
        exact List.mem_map.mpr ⟨r, hmem, rfl⟩
      have hpa : (decide (a.id = r.id)) = false := decide_eq_false hne
      rw [List.find?_cons, hpa]
      exact ih (List.nodup_cons.mp hnd).2 hmem

/-- C10: in every reachable database, every row stored with status failed —
exactly the rows `send_notification` writes for invalid channels — has a
channel outside the enumerated set, and `get_notification` on that id
raises while decoding the row (the `Channel(...)` constructor applied to
the stored string) instead of returning a notification. -/
theorem C10_get_notification_raises {db : DB} (hreach : Reachable db)
    {r : Notification} (hr : r ∈ db.notifications) (hfail : r.status = "failed") :
    Channel.fromString r.channel = none ∧
    get_notification r.id db = Except.error (r.channel ++ " is not a valid Channel") := by
  obtain ⟨hnd, hinv⟩ := reachable_storeInv hreach
  have hc := hinv r hr hfail
  refine ⟨hc, ?_⟩
  have hgoal : get_notification r.id db
      = match _row_to_notification r with
        | Except.error e => Except.error e
        | Except.ok n => Except.ok (some n) := by
    unfold get_notification
    rw [find?_of_mem_nodup hnd hr]
  rw [hgoal]
  unfold _row_to_notification
  rw [hc]

/-- Witness for C10 at the failed sms row written by one send from the
fresh database. -/
theorem C10_witness :
    Channel.fromString
        ({ sampleN "n2" "sms" with status := "failed", sent_at := none } : Notification).channel
      = none ∧
    get_notification "n2" dbOneFailed = Except.error "sms is not a valid Channel" := by
  have hreach : Reachable dbOneFailed := Reachable.send (sampleN "n2" "sms") 2 0 Reachable.init
  have h := C10_get_notification_raises hreach
    (r := { sampleN "n2" "sms" with status := "failed", sent_at := none })
    (by decide) (by decide)
  exact ⟨h.1, h.2⟩

/-! ### Claim C6 -/

/-- C6: for every getattr behaviour of the runtime, rendering substitutes
every placeholder independently — the output is the concatenation of the
renderings of the tokens of the match decomposition, a placeholder's
rendering depending only on its own inner text, the context and the runtime
— and a placeholder whose trimmed dotted path fails to resolve (a missing
dict key, or a non-mapping value whose queried attribute does not exist)
contributes its original matched text unchanged: never an empty string,
never an exception (the embedding is a total function). The spec's
round-trip examples hold under every getattr behaviour, their paths being
settled by dict lookups alone. -/
theorem C6_render_fail_closed (attr : PyVal → String → Option PyVal)
    (template : String) (context : List (String × Json)) (inner : List Char)
    (hfail : getPath attr (PyVal.json (Json.obj context))
        ((splitDot (pyStrip inner)).map (fun cs => String.mk cs)) = none) :
    _simple_render attr template context
      = String.mk (((tokenize template.toList).map (renderTok attr context)).flatten) ∧
    renderTok attr context (RTok.ph inner) = '\x7b' :: '\x7b' :: (inner ++ ['\x7d', '\x7d']) ∧
    renderTok attr context (RTok.ph inner) ≠ [] ∧
    _simple_render attr "Hello \x7b\x7bname\x7d\x7d" [("name", Json.str "World")]
      = "Hello World" ∧
    _simple_render attr "\x7b\x7bmissing\x7d\x7d" [] = "\x7b\x7bmissing\x7d\x7d" ∧
    _simple_render attr "\x7b\x7buser.name\x7d\x7d"
        [("user", Json.obj [("name", Json.str "Alice")])]
      = "Alice" := by
  have hph : renderTok attr context (RTok.ph inner)
      = '\x7b' :: '\x7b' :: (inner ++ ['\x7d', '\x7d']) := by
    simp only [renderTok, replacer]
    rw [hfail]
  refine ⟨rfl, hph, by rw [hph]; simp, ?_, ?_, ?_⟩
  · simp [_simple_render, tokenize, findClose, renderTok, replacer, pyStrip, splitDot,
      getPath, pyStr, pyStrVal, isPySpace]
  · simp [_simple_render, tokenize, findClose, renderTok, replacer, pyStrip, splitDot,
      getPath, pyStr, pyStrVal, isPySpace]
  · simp [_simple_render, tokenize, findClose, renderTok, replacer, pyStrip, splitDot,
      getPath, pyStr, pyStrVal, isPySpace]

/-- Witness for C6 at a concrete failing placeholder — the path user.email
in a context whose user mapping lacks the key, so the dict lookup raises
KeyError for every getattr behaviour, here instantiated with the empty one —
inside a template where the other placeholder still resolves. -/
theorem C6_witness :
    renderTok attrEmpty [("user", Json.obj [("name", Json.str "Alice")])]
        (RTok.ph "user.email".toList)
      = "\x7b\x7buser.email\x7d\x7d".toList ∧
    _simple_render attrEmpty "\x7b\x7buser.name\x7d\x7d \x7b\x7buser.email\x7d\x7d"
        [("user", Json.obj [("name", Json.str "Alice")])]
      = "Alice \x7b\x7buser.email\x7d\x7d" := by
  have h := C6_render_fail_closed attrEmpty
    "\x7b\x7buser.name\x7d\x7d \x7b\x7buser.email\x7d\x7d"
    [("user", Json.obj [("name", Json.str "Alice")])] "user.email".toList (by rfl)
  refine ⟨h.2.1, ?_⟩
  rw [h.1]
  simp [tokenize, findClose, renderTok, replacer, pyStrip, splitDot, getPath, pyStr,
    pyStrVal, isPySpace, attrEmpty,
    show List.lookup "email" [("name", Json.str "Alice")] = (none : Option Json) from rfl]

end NotificationHub
